import Mathlib

/-!
Shallow embedding of `sidecar.c` — a terminal dashboard that samples CPU,
memory, load-average and power counters each tick, keeps a fixed-capacity
history of percentages, tails an optional debug file, and renders the
result in a loop.

Machine integers (`unsigned long long`, `unsigned long`, both 64-bit on
the LP64 targets the program is written for) are modelled as `Nat` with
explicit reduction modulo `2 ^ 64` at each arithmetic step, matching C's
wrap-around semantics.  `double` values produced by exact integer
divisions are modelled as `Rat`; a division whose divisor is zero (which
in IEEE arithmetic yields a non-finite `inf`/`NaN`, never `0`) is
modelled as `none : Option Rat`.  Fallible reads of `/proc` files and of
the power-supply directory are modelled as `Option` inputs: `none` means
the corresponding `fopen`/`fgets`/`opendir` call failed.
-/

namespace Sidecar

/-- Width of `unsigned long long` / `unsigned long` (LP64). -/
def W : Nat := 2 ^ 64

/-- C unsigned 64-bit addition: wraps modulo `2 ^ 64`. -/
def add64 (a b : Nat) : Nat := (a + b) % W

/-- C unsigned 64-bit subtraction `a - b`: wraps modulo `2 ^ 64`.
    Correct for arbitrary `Nat` arguments since `b % W < W`. -/
def sub64 (a b : Nat) : Nat := (a + (W - b % W)) % W

/-- `struct cpu_stats`: the eight cumulative counters scanned from the
    `cpu` line of `/proc/stat` with `%llu`. -/
structure cpu_stats where
  user : Nat
  nice : Nat
  system : Nat
  idle : Nat
  iowait : Nat
  irq : Nat
  softirq : Nat
  steal : Nat
deriving DecidableEq

/-- `idle` accumulator of `get_cpu_usage`: `s->idle + s->iowait`. -/
def cpu_idle_of (s : cpu_stats) : Nat := add64 s.idle s.iowait

/-- `non`-idle accumulator of `get_cpu_usage`:
    `s->user + s->nice + s->system + s->irq + s->softirq + s->steal`. -/
def cpu_non_of (s : cpu_stats) : Nat :=
  add64 (add64 (add64 (add64 (add64 s.user s.nice) s.system) s.irq) s.softirq) s.steal

/-- `total` accumulator of `get_cpu_usage`: `idle + non`. -/
def cpu_total_of (s : cpu_stats) : Nat := add64 (cpu_idle_of s) (cpu_non_of s)

/-- `diff_total = total - prev_total` (unsigned subtraction). -/
def cpu_total_delta (prev cur : cpu_stats) : Nat :=
  sub64 (cpu_total_of cur) (cpu_total_of prev)

/-- `get_cpu_usage`: given the previous snapshot and the freshly read one,
    returns `(busy percentage, iowait percentage)` — the function's return
    value and the value it stores into the global `last_io_pct`.  The
    divisions of the C code are exact here (`double` rounding aside); the
    zero-delta branch returns `(0, 0)` without dividing. -/
def get_cpu_usage (prev cur : cpu_stats) : Rat × Rat :=
  let diff_total := cpu_total_delta prev cur
  let diff_idle := sub64 (cpu_idle_of cur) (cpu_idle_of prev)
  let diff_iowait := sub64 cur.iowait prev.iowait
  if 0 < diff_total then
    (((sub64 diff_total diff_idle : Nat) : Rat) / (diff_total : Rat) * 100,
     ((diff_iowait : Nat) : Rat) / (diff_total : Rat) * 100)
  else
    (0, 0)

/-- The idle complement percentage `diff_idle / diff_total * 100`
    (not computed by the C code; stated by the spec as the complement of
    the busy percentage). -/
def cpu_idle_pct (prev cur : cpu_stats) : Rat :=
  let diff_total := cpu_total_delta prev cur
  let diff_idle := sub64 (cpu_idle_of cur) (cpu_idle_of prev)
  if 0 < diff_total then (diff_idle : Rat) / (diff_total : Rat) * 100 else 0

/-- Componentwise "each counter is non-decreasing" between two snapshots. -/
def cpu_le (a b : cpu_stats) : Prop :=
  a.user ≤ b.user ∧ a.nice ≤ b.nice ∧ a.system ≤ b.system ∧ a.idle ≤ b.idle ∧
  a.iowait ≤ b.iowait ∧ a.irq ≤ b.irq ∧ a.softirq ≤ b.softirq ∧ a.steal ≤ b.steal

instance (a b : cpu_stats) : Decidable (cpu_le a b) := by
  unfold cpu_le; infer_instance

/-- Mathematical (non-wrapping) sum of all eight counters. -/
def cpu_sum (s : cpu_stats) : Nat :=
  s.user + s.nice + s.system + s.idle + s.iowait + s.irq + s.softirq + s.steal

/-! ### Memory sampler (`get_mem_usage`) -/

/-- The six accumulator variables of `get_mem_usage` together with their
    initial values `mem_total=1, mem_free=0, buffers=0, cached=0,
    swap_total=1, swap_free=0`. -/
structure mem_totals where
  mem_total : Nat
  mem_free : Nat
  buffers : Nat
  cached : Nat
  swap_total : Nat
  swap_free : Nat
deriving DecidableEq

/-- The `fscanf` loop of `get_mem_usage`: the input is the sequence of
    `(key, value)` pairs successfully scanned from `/proc/meminfo` with
    `"%31s %lu %7s"` (values are below `2 ^ 64`); recognized keys update
    the matching accumulator, later lines overwriting earlier ones. -/
def mem_scan (entries : List (String × Nat)) : mem_totals :=
  entries.foldl
    (fun m e =>
      if e.1 = "MemTotal:" then { m with mem_total := e.2 }
      else if e.1 = "MemFree:" then { m with mem_free := e.2 }
      else if e.1 = "Buffers:" then { m with buffers := e.2 }
      else if e.1 = "Cached:" then { m with cached := e.2 }
      else if e.1 = "SwapTotal:" then { m with swap_total := e.2 }
      else if e.1 = "SwapFree:" then { m with swap_free := e.2 }
      else m)
    { mem_total := 1, mem_free := 0, buffers := 0, cached := 0,
      swap_total := 1, swap_free := 0 }

/-- `get_mem_usage`: returns `(used-memory %, swap-used %)` — the
    function's return value and the out-parameter `*swap_pct`.  The swap
    percentage is guarded by `swap_total > 0`; the used-memory division
    `(double)used / mem_total` has no such guard in the source, so a table
    that explicitly reports `MemTotal: 0` divides by zero — in IEEE
    `double` arithmetic that produces a non-finite value, modelled here
    as `none`.  `used = mem_total - mem_free - buffers - cached` uses
    unsigned (wrapping) subtraction exactly as in C. -/
def get_mem_usage (entries : List (String × Nat)) : Option Rat × Rat :=
  let m := mem_scan entries
  let used := sub64 (sub64 (sub64 m.mem_total m.mem_free) m.buffers) m.cached
  let swap_pct : Rat :=
    if 0 < m.swap_total then
      ((sub64 m.swap_total m.swap_free : Nat) : Rat) / (m.swap_total : Rat) * 100
    else 0
  (if m.mem_total = 0 then none
   else some (((used : Nat) : Rat) / (m.mem_total : Rat) * 100),
   swap_pct)

/-! ### Load-average sampler (`parse_loadavg`)

`sscanf(buffer, "%lf %lf %lf %d/%d %d", ...)` is embedded at character
level for the decimal subset it meets in practice: `%lf` is modelled as
strtod's plain decimal form (optional sign, digits with an optional
fractional part — no exponents, hex or infinities), `%d` as an optional
sign followed by digits, both skipping leading whitespace, and the `/`
as a literal match.  Crucially, `sscanf` stores each converted value the
moment its conversion succeeds, so a line that fails after the k-th
conversion has already overwritten the first k fields. -/

/-- `struct loadavg_t`. -/
structure loadavg_t where
  load_1min : Rat
  load_5min : Rat
  load_15min : Rat
  running_processes : Int
  total_processes : Int
  last_pid : Int
deriving DecidableEq

/-- Skip leading whitespace, as both a whitespace directive and a numeric
    conversion of `sscanf` do. -/
def skip_ws : List Char → List Char
  | [] => []
  | c :: s => if c.isWhitespace then skip_ws s else c :: s

/-- Value of a (most-significant-first) digit string. -/
def digitsToNat (ds : List Char) : Nat :=
  ds.foldl (fun n c => n * 10 + (c.toNat - Char.toNat '0')) 0

/-- Greedy run of decimal digits; fails when none is present. -/
def parse_unsigned (s : List Char) : Option (Nat × List Char) :=
  let p := s.span (fun c => c.isDigit)
  if p.1.isEmpty then none else some (digitsToNat p.1, p.2)

/-- `%d`: optional sign then at least one digit (whitespace already
    skipped by the caller). -/
def parse_int (s : List Char) : Option (Int × List Char) :=
  match s with
  | '-' :: rest => (parse_unsigned rest).map (fun p => (-(p.1 : Int), p.2))
  | '+' :: rest => (parse_unsigned rest).map (fun p => ((p.1 : Int), p.2))
  | _ => (parse_unsigned s).map (fun p => ((p.1 : Int), p.2))

/-- Unsigned decimal part of `%lf`: digits with an optional `.` and
    fraction digits; at least one digit must appear on either side. -/
def parse_float_core (s : List Char) : Option (Rat × List Char) :=
  let p := s.span (fun c => c.isDigit)
  match p.2 with
  | '.' :: r2 =>
    let q := r2.span (fun c => c.isDigit)
    if p.1.isEmpty ∧ q.1.isEmpty then none
    else some ((digitsToNat p.1 : Rat) + (digitsToNat q.1 : Rat) / ((10 : Rat) ^ q.1.length),
               q.2)
  | _ => if p.1.isEmpty then none else some ((digitsToNat p.1 : Rat), p.2)

/-- `%lf` (decimal subset): optional sign then `parse_float_core`. -/
def parse_float (s : List Char) : Option (Rat × List Char) :=
  match s with
  | '-' :: rest => (parse_float_core rest).map (fun p => (-p.1, p.2))
  | '+' :: rest => parse_float_core rest
  | _ => parse_float_core s

/-- The `sscanf` call of `parse_loadavg`: scans
    `"%lf %lf %lf %d/%d %d"` over `s`, storing into `lv` field by field
    as conversions succeed, and returns the updated record together with
    the number of successful conversions (the C return value, except that
    C reports `EOF` instead of `0` when input ends before the first
    conversion — both fail the `parsed != 6` test identically). -/
def scan_loadavg (s : List Char) (lv : loadavg_t) : loadavg_t × Nat :=
  match parse_float (skip_ws s) with
  | none => (lv, 0)
  | some (v1, s1) =>
    let lv1 := { lv with load_1min := v1 }
    match parse_float (skip_ws s1) with
    | none => (lv1, 1)
    | some (v2, s2) =>
      let lv2 := { lv1 with load_5min := v2 }
      match parse_float (skip_ws s2) with
      | none => (lv2, 2)
      | some (v3, s3) =>
        let lv3 := { lv2 with load_15min := v3 }
        match parse_int (skip_ws s3) with
        | none => (lv3, 3)
        | some (r, s4) =>
          let lv4 := { lv3 with running_processes := r }
          if s4.head? = some '/' then
            match parse_int (skip_ws (s4.drop 1)) with
            | none => (lv4, 4)
            | some (t, s6) =>
              let lv5 := { lv4 with total_processes := t }
              match parse_int (skip_ws s6) with
              | none => (lv5, 5)
              | some (p, _) => ({ lv5 with last_pid := p }, 6)
          else (lv4, 4)

/-- `parse_loadavg`: `line = none` models a failed
    `fopen("/proc/loadavg")` or `fgets` (no field is touched); otherwise
    the buffer is scanned and the call returns `0` on a full six-field
    parse and `-1` otherwise.  The (possibly partially overwritten)
    record is returned because the caller passes its `loadavg_t` by
    pointer. -/
def parse_loadavg (lv : loadavg_t) (line : Option (List Char)) : loadavg_t × Int :=
  match line with
  | none => (lv, -1)
  | some buf =>
    let r := scan_loadavg buf lv
    if r.2 = 6 then (r.1, 0) else (r.1, -1)

/-! ### Debug log buffer (`debug_log_append`) -/

/-- `#define MAX_DEBUG_LINES 12`. -/
def MAX_DEBUG_LINES : Nat := 12

/-- `debug_log_append`: the global array `debug_lines[0..debug_line_count)`
    is modelled as a list, oldest first.  At capacity the oldest line is
    freed and the rest shifted down before the new line is appended. -/
def debug_log_append (buf : List String) (line : String) : List String :=
  if MAX_DEBUG_LINES ≤ buf.length then buf.drop 1 ++ [line] else buf ++ [line]

/-- Appending a whole sequence of lines in order. -/
def debug_append_all (buf : List String) (ls : List String) : List String :=
  ls.foldl debug_log_append buf

/-! ### Tail-file ingester (`read_debug_file`)

The watched `FILE *` stream is modelled by the bytes appended after the
current read position plus the stream's end-of-file indicator.  Per
C semantics (`fgetc`, C11 7.21.7.1), a read on a stream whose EOF
indicator is set fails immediately without consuming input — which is
exactly why the source calls `clearerr` after every drain. -/

/-- The watched stream: unread bytes and the EOF indicator.
    `init_debug_file` leaves it at `⟨[], false⟩` (it seeks to the end,
    which clears the indicator). -/
structure dbg_stream where
  pending : List Char
  eof : Bool
deriving DecidableEq

/-- Core of `fgets(line, 1024, fp)`: collect characters up to and
    including the first newline, or until `n` characters (1023) have
    been taken or input ends; returns the chunk and the rest. -/
def fgets_go (acc : List Char) : Nat → List Char → List Char × List Char
  | _, [] => (acc.reverse, [])
  | 0, s => (acc.reverse, s)
  | n + 1, c :: rest =>
    if c = '\n' then ((c :: acc).reverse, rest) else fgets_go (c :: acc) n rest

/-- `fgets(line, 1024, dbg_fp)`: fails immediately when the EOF
    indicator is set; sets the indicator (and fails) when no input is
    available; otherwise returns the next chunk. -/
def dbg_fgets (st : dbg_stream) : Option (List Char) × dbg_stream :=
  if st.eof then (none, st)
  else if st.pending.isEmpty then (none, { st with eof := true })
  else
    let r := fgets_go [] 1023 st.pending
    (some r.1, { st with pending := r.2 })

/-- `line[strcspn(line, "\r\n")] = 0`: truncate at the first CR or LF. -/
def strcspn_cut (s : List Char) : List Char :=
  s.takeWhile (fun c => c != '\r' && c != '\n')

/-- The `while (fgets(...))` loop of `read_debug_file`, fuel-indexed.
    Each successful `fgets` consumes at least one pending character, so
    `pending.length + 1` units of fuel make this an exact model of the
    (always terminating) C loop. -/
def read_debug_go : Nat → dbg_stream → List String → Bool → dbg_stream × List String × Bool
  | 0, st, buf, upd => (st, buf, upd)
  | fuel + 1, st, buf, upd =>
    match dbg_fgets st with
    | (none, st') => (st', buf, upd)
    | (some l, st') =>
      read_debug_go fuel st' (debug_log_append buf (String.mk (strcspn_cut l))) true

/-- `read_debug_file` (with the stream and buffer passed explicitly
    instead of living in globals): drain every available chunk, then
    `clearerr(dbg_fp)` — the EOF indicator never survives a drain.
    Returns the stream, the log buffer and the `updated` flag. -/
def read_debug_file (st : dbg_stream) (buf : List String) : dbg_stream × List String × Bool :=
  let r := read_debug_go (st.pending.length + 1) st buf false
  ({ r.1 with eof := false }, r.2.1, r.2.2)

/-- One externally appended text line, encoded as its payload followed by
    the terminating newline the writer appends. -/
def encode_line (l : List Char) : List Char := l ++ ['\n']

/-- Bytes appended by the external writer for a batch of lines. -/
def encode_lines (lines : List (List Char)) : List Char :=
  (lines.map encode_line).flatten

/-- The external writer appends `lines` to the watched file; this only
    grows the unread bytes — it does NOT touch the EOF indicator. -/
def append_text (st : dbg_stream) (lines : List (List Char)) : dbg_stream :=
  { st with pending := st.pending ++ encode_lines lines }

/-- A line the `fgets(…, 1024, …)` window reads in one piece: shorter
    than 1023 bytes (payload + newline fit in one call) and free of CR/LF
    bytes of its own. -/
def CleanLine (l : List Char) : Prop :=
  l.length ≤ 1022 ∧ ∀ c ∈ l, ¬(c = '\r' ∨ c = '\n')

instance (l : List Char) : Decidable (CleanLine l) := by
  unfold CleanLine; infer_instance

/-- One tick-cycle of the claim: the writer appends a batch of lines,
    then the poll loop drains.  Iterated over a whole schedule of
    batches (batches may be empty: a tick where nothing was appended and
    the drain just hits EOF). -/
def run_cycles : dbg_stream → List String → List (List (List Char)) → dbg_stream × List String
  | st, buf, [] => (st, buf)
  | st, buf, cyc :: rest =>
    let st1 := append_text st cyc
    let r := read_debug_file st1 buf
    run_cycles r.1 r.2.1 rest

/-! ### Power sampler (`parse_power_status`) -/

/-- `struct power_status_t`. -/
structure power_status_t where
  battery_percent : Int
  on_ac : Nat
deriving DecidableEq

/-- One entry of `/sys/class/power_supply`, as `parse_power_status`
    observes it: the directory-entry name, the first line of its `type`
    attribute (`none`: the file cannot be opened or reads empty), and the
    integers/first lines of its `capacity`, `online` and `status`
    attributes (`none`: missing or unparseable). -/
structure psu_device where
  name : List Char
  typ : Option (List Char)
  capacity : Option Int
  online : Option Int
  status : Option (List Char)
deriving DecidableEq

/-- `read_sys_int`: `value` is initialized to `-1` and only overwritten
    when the file opens and `fscanf("%d")` succeeds. -/
def read_sys_int (v : Option Int) : Int := v.getD (-1)

/-- `strncmp`-style check that `needle` is an initial run of `hay`. -/
def pre_match : List Char → List Char → Bool
  | [], _ => true
  | _ :: _, [] => false
  | a :: as, b :: bs => a = b && pre_match as bs

/-- `strstr(hay, needle) != NULL`. -/
def strstr : List Char → List Char → Bool
  | [], needle => needle.isEmpty
  | c :: t, needle => pre_match needle (c :: t) || strstr t needle

/-- `buf[strcspn(buf, "\n")] = '\0'`: truncate at the first LF. -/
def strcspn_nl (s : List Char) : List Char := s.takeWhile (fun c => c ≠ '\n')

/-- The four mutable locals of the first enumeration pass. -/
structure power_scan_state where
  battery_percent : Int
  on_ac : Nat
  found_battery : Bool
  found_ac : Bool
deriving DecidableEq

/-- Body of the first `readdir` loop of `parse_power_status`: skip dotted
    names; skip devices whose `type` attribute cannot be read; the first
    `Battery`-typed device supplies `battery_percent` from `capacity`
    (accepted only when non-negative); otherwise a device matching the
    AC markers (type exactly `Mains` or `ADP1`, or a NAME containing
    `ADP` or `AC`) supplies `on_ac` when its `online` attribute is
    positive. -/
def pass1_step (st : power_scan_state) (d : psu_device) : power_scan_state :=
  if d.name.head? = some '.' then st
  else
    match d.typ with
    | none => st
    | some tb =>
      let t := strcspn_nl tb
      if t = "Battery".data ∧ st.found_battery = false then
        let bp := read_sys_int d.capacity
        { st with battery_percent := bp, found_battery := decide (0 ≤ bp) }
      else if (t = "Mains".data ∨ t = "ADP1".data ∨
               strstr d.name "ADP".data = true ∨ strstr d.name "AC".data = true) ∧
              st.found_ac = false then
        if 0 < read_sys_int d.online then { st with on_ac := 1, found_ac := true }
        else st
      else st

/-- Second enumeration pass (`!found_ac && found_battery`): re-scan the
    same directory, and for the first non-dotted device whose `type`
    attribute reads as `Battery`, report whether its `status` attribute
    reads exactly `Charging`; the loop breaks there regardless. -/
def pass2 : List psu_device → Bool
  | [] => false
  | d :: rest =>
    if d.name.head? = some '.' then pass2 rest
    else
      match d.typ with
      | none => pass2 rest
      | some tb =>
        if strcspn_nl tb = "Battery".data then
          match d.status with
          | some sb => decide (strcspn_nl sb = "Charging".data)
          | none => false
        else pass2 rest

/-- `parse_power_status`: `dir = none` models a failed
    `opendir("/sys/class/power_supply")` — the defaults
    `battery_percent = -1, on_ac = 0` were already stored and `-1` is
    returned.  Otherwise both passes run over the directory's entries in
    order and the call returns `0`. -/
def parse_power_status (dir : Option (List psu_device)) : power_status_t × Int :=
  match dir with
  | none => ({ battery_percent := -1, on_ac := 0 }, -1)
  | some devs =>
    let st := devs.foldl pass1_step
      { battery_percent := -1, on_ac := 0, found_battery := false, found_ac := false }
    let ac : Nat :=
      if st.found_ac = false ∧ st.found_battery = true then
        if pass2 devs then 1 else st.on_ac
      else st.on_ac
    ({ battery_percent := st.battery_percent, on_ac := ac }, 0)

/-! ### History ring (`main`, history push) -/

/-- `#define MAXW 512`: length of the backing arrays `hist_cpu`,
    `hist_mem`. -/
def MAXW : Nat := 512

/-- `#define HISTORY_DIVISOR 4`. -/
def HISTORY_DIVISOR : Nat := 4

/-- One history push, as `main` performs it on a full `MAXW`-element
    array: `memmove(hist, hist+1, (MAXW-1)*sizeof(double))` shifts every
    entry one position toward the oldest end (index 0), discarding the
    oldest, and the new value lands at index `MAXW-1`. -/
def hist_push {α : Type} (h : List α) (v : α) : List α := h.drop 1 ++ [v]

/-- Iterated pushes, oldest batch first. -/
def hist_push_all {α : Type} (h : List α) (vs : List α) : List α :=
  vs.foldl hist_push h

/-! ### Renderer: the summary line showing process counts and power -/

/-- The battery figure printed by
    `power.battery_percent == -1 ? 0 : power.battery_percent`. -/
def battery_display (p : power_status_t) : Int :=
  if p.battery_percent = -1 then 0 else p.battery_percent

/-- The marker printed by `power.on_ac == 1 ? "on ac)  " : "on batt)"`. -/
def ac_marker (p : power_status_t) : String :=
  if p.on_ac = 1 then "on ac)  " else "on batt)"

/-- The `" > [%d/%d] :: (%d%% %s\n"` summary line of the render pass. -/
def summary_procs_line (lv : loadavg_t) (p : power_status_t) : String :=
  " > [" ++ toString lv.running_processes ++ "/" ++ toString lv.total_processes ++
  "] :: (" ++ toString (battery_display p) ++ "% " ++ ac_marker p ++ "\n"

/-! ### The poll loop (`main`, one iteration) -/

/-- The mutable state the loop body reads and writes: the previous CPU
    snapshot, the last load/power snapshots, `last_io_pct`, the two
    history arrays (a memory percentage may be the non-finite `none`,
    see `get_mem_usage`), `hist_counter`, whether a debug file is
    attached (`dbg_fp != NULL`), the watched stream, and the log
    buffer. -/
structure LoopState where
  prev : cpu_stats
  loads : loadavg_t
  power : power_status_t
  last_io_pct : Rat
  hist_cpu : List Rat
  hist_mem : List (Option Rat)
  hist_counter : Nat
  dbg_attached : Bool
  dbg : dbg_stream
  debug_lines : List String

/-- The outcome of this tick's interactions with the outside world:
    `proc_stat = none` / `proc_meminfo = none` model a failed `fopen` of
    the respective file (on which the C helpers call `exit(1)`);
    `proc_loadavg = none` models a failed open/read of `/proc/loadavg`;
    `power_dir = none` a failed `opendir`; `appended` is whatever the
    external writer added to the watched file since the last tick. -/
structure TickEnv where
  proc_stat : Option cpu_stats
  proc_meminfo : Option (List (String × Nat))
  proc_loadavg : Option (List Char)
  power_dir : Option (List psu_device)
  appended : List Char

/-- One iteration of the `while (1)` loop of `main` (rendering performs
    no state change and cannot fail, so it is not reflected in the
    state).  Returns `none` exactly when the iteration terminates the
    process: `get_cpu_stats` and `get_mem_usage` call `exit(1)` when
    their `fopen` fails; every other per-tick failure (load-average
    parse, power enumeration, log drain) only leaves its snapshot stale
    or partially updated and the loop continues. -/
def loop_step (st : LoopState) (env : TickEnv) : Option LoopState :=
  match env.proc_stat with
  | none => none
  | some cur =>
    let u := get_cpu_usage st.prev cur
    match env.proc_meminfo with
    | none => none
    | some tbl =>
      let m := get_mem_usage tbl
      let lr := parse_loadavg st.loads env.proc_loadavg
      let pr := parse_power_status env.power_dir
      let st1 := { st with prev := cur, last_io_pct := u.2, loads := lr.1, power := pr.1 }
      let st2 :=
        if st1.dbg_attached then
          let r := read_debug_file
            { st1.dbg with pending := st1.dbg.pending ++ env.appended } st1.debug_lines
          { st1 with dbg := r.1, debug_lines := r.2.1 }
        else st1
      let st3 :=
        if st2.hist_counter = 0 then
          { st2 with hist_cpu := hist_push st2.hist_cpu u.1,
                     hist_mem := hist_push st2.hist_mem m.1 }
        else st2
      some { st3 with hist_counter := (st3.hist_counter + 1) % HISTORY_DIVISOR }

/-! ### Concrete inputs used by witnesses and counterexamples -/

/-- A loop state as of the first iteration: zeroed snapshots and
    histories, counter at 0, no debug file attached. -/
def c1_state0 : LoopState :=
  { prev := ⟨0, 0, 0, 0, 0, 0, 0, 0⟩, loads := ⟨0, 0, 0, 0, 0, 0⟩,
    power := ⟨-1, 0⟩, last_io_pct := 0,
    hist_cpu := List.replicate MAXW 0, hist_mem := List.replicate MAXW (some 0),
    hist_counter := 0, dbg_attached := false, dbg := ⟨[], false⟩, debug_lines := [] }

/-- A tick on which `fopen("/proc/stat")` fails while everything else is
    healthy. -/
def c1_env_down : TickEnv :=
  { proc_stat := none, proc_meminfo := some [], proc_loadavg := none,
    power_dir := none, appended := [] }

/-- A tick on which both `/proc` tables open but the optional reads all
    fail. -/
def c1_env_up : TickEnv :=
  { proc_stat := some ⟨0, 0, 0, 0, 0, 0, 0, 0⟩, proc_meminfo := some [],
    proc_loadavg := none, power_dir := none, appended := [] }

/-- A memory table explicitly reporting both totals as zero. -/
def c3_table0 : List (String × Nat) := [("MemTotal:", 0), ("SwapTotal:", 0)]

/-- A last-known-good load snapshot with recognizable values. -/
def c4_lv0 : loadavg_t := ⟨7, 8, 9, 1, 2, 3⟩

/-- Snapshot pair exhibiting 64-bit wrap-around: all counters
    non-decreasing, wrapped total delta positive (`= 1`), yet the idle
    delta is `2 ^ 63`, so the unsigned `diff_total - diff_idle` wraps to
    `2 ^ 63 + 1` and the busy percentage explodes. -/
def c5_prev0 : cpu_stats := ⟨0, 0, 0, 0, 0, 0, 0, 0⟩

/-- See `c5_prev0`. -/
def c5_cur0 : cpu_stats := ⟨2 ^ 63 + 1, 0, 0, 2 ^ 63, 0, 0, 0, 0⟩

/-- A three-tick schedule: one line, then a tick with nothing appended
    (the drain just hits and clears EOF), then two more lines. -/
def c8_sched : List (List (List Char)) := [[['a']], [], [['b', 'c'], ['d']]]

/-- 512 distinct CPU/memory pairs to push. -/
def c6_vals : List (Rat × Rat) :=
  (List.range MAXW).map (fun (i : Nat) => ((i : Rat), (i : Rat) + 1))

/-- A full log buffer of twelve lines. -/
def c7_buf0 : List String := (List.range MAX_DEBUG_LINES).map (fun i => toString i)

/-- Twenty distinct lines to append. -/
def c7_lines0 : List String := (List.range 20).map (fun i => toString i)

/-! ## Theorems -/

/-- **C2.** For every pair of consecutive `cpu_stats` whose
    total-counter delta is zero, `get_cpu_usage` returns busy% = 0 and
    stores iowait% = 0 into `last_io_pct`; the zero-delta branch performs
    no division. -/
theorem cpu_zero_delta_yields_zero (prev cur : cpu_stats)
    (h : cpu_total_delta prev cur = 0) :
    get_cpu_usage prev cur = (0, 0) := by
  simp [get_cpu_usage, h]

/-- Witness for `cpu_zero_delta_yields_zero`: two identical snapshots
    (the "first tick" shape) have zero total delta and yield `(0, 0)`. -/
theorem cpu_zero_delta_yields_zero_witness :
    cpu_total_delta ⟨1, 2, 3, 4, 5, 6, 7, 8⟩ ⟨1, 2, 3, 4, 5, 6, 7, 8⟩ = 0 ∧
    get_cpu_usage ⟨1, 2, 3, 4, 5, 6, 7, 8⟩ ⟨1, 2, 3, 4, 5, 6, 7, 8⟩ = (0, 0) :=
  ⟨by decide, cpu_zero_delta_yields_zero _ _ (by decide)⟩

/-- **C3 (counterexample).** A table explicitly reporting `MemTotal: 0`
    reaches the unguarded division `(double)used / mem_total`: the
    returned used-memory percentage is the non-finite `none`, not `0`.
    (Only the swap percentage is guarded in the source.) -/
theorem mem_zero_total_cex :
    (mem_scan c3_table0).mem_total = 0 ∧ (get_mem_usage c3_table0).1 ≠ some 0 := by
  decide

/-- **C3 (amended).** If the reported swap total is zero the returned
    swap percentage is `0` (that guard exists); if the reported total
    memory is zero the used-memory division is performed anyway with a
    zero divisor and the result is non-finite (`none`), not `0`. -/
theorem mem_zero_total_amended (entries : List (String × Nat)) :
    ((mem_scan entries).swap_total = 0 → (get_mem_usage entries).2 = 0) ∧
    ((mem_scan entries).mem_total = 0 → (get_mem_usage entries).1 = none) := by
  constructor <;> intro h <;> simp [get_mem_usage, h]

/-- Witness for `mem_zero_total_amended` at `c3_table0`. -/
theorem mem_zero_total_amended_witness :
    (get_mem_usage c3_table0).2 = 0 ∧ (get_mem_usage c3_table0).1 = none :=
  ⟨(mem_zero_total_amended c3_table0).1 (by decide),
   (mem_zero_total_amended c3_table0).2 (by decide)⟩

/-- **C1 (counterexample).** A per-tick failure to open `/proc/stat`
    does terminate the process even after a healthy startup:
    `get_cpu_stats` calls `exit(1)` from inside the loop body. -/
theorem loop_step_exit_cex : loop_step c1_state0 c1_env_down = none := rfl

/-- **C1 (amended).** As long as the per-tick `fopen` of `/proc/stat`
    and `/proc/meminfo` succeed, no other per-tick outcome — load-average
    open/parse failure, power-enumeration failure, any log-drain outcome —
    can terminate the loop: the step always produces a next state. -/
theorem loop_step_no_exit (st : LoopState) (env : TickEnv)
    (h1 : env.proc_stat.isSome = true) (h2 : env.proc_meminfo.isSome = true) :
    (loop_step st env).isSome = true := by
  rcases env with ⟨ps, pm, pl, pd, ap⟩
  rcases ps with _ | c
  · simp at h1
  rcases pm with _ | t
  · simp at h2
  simp [loop_step]

/-- Witness for `loop_step_no_exit`: both tables open, all optional
    reads fail, and the step still continues. -/
theorem loop_step_no_exit_witness : (loop_step c1_state0 c1_env_up).isSome = true :=
  loop_step_no_exit c1_state0 c1_env_up rfl rfl

/-- **C10.** A power snapshot holding the no-battery sentinel `-1` is
    rendered as the figure `0` (with the `on batt)` marker when
    `on_ac = 0`), so the summary line of a host with no battery is
    identical to that of a host whose battery reads exactly 0%. -/
theorem battery_sentinel_renders_zero (lv : loadavg_t) (ac : Nat) :
    battery_display ⟨-1, ac⟩ = 0 ∧ ac_marker ⟨-1, 0⟩ = "on batt)" ∧
    summary_procs_line lv ⟨-1, ac⟩ = summary_procs_line lv ⟨0, ac⟩ := by
  refine ⟨by simp [battery_display], rfl, ?_⟩
  simp [summary_procs_line, battery_display, ac_marker]

/-- **C9.** For a device set holding exactly one device (any non-dotted
    name) of type `Battery` with capacity 42 and no AC-type device, the
    sampler reports `battery_percent = 42`, and the second enumeration
    pass makes `on_ac = 1` exactly when the battery's `status` attribute
    reads `Charging`, `on_ac = 0` when it reads `Discharging`. -/
theorem power_battery_charging_proxy (name : List Char) (onl : Option Int)
    (hname : name.head? ≠ some '.') :
    parse_power_status (some [⟨name, some "Battery".data, some 42, onl, some "Charging".data⟩]) =
      ({ battery_percent := 42, on_ac := 1 }, 0) ∧
    parse_power_status (some [⟨name, some "Battery".data, some 42, onl, some "Discharging".data⟩]) =
      ({ battery_percent := 42, on_ac := 0 }, 0) := by
  constructor <;>
    simp [parse_power_status, pass1_step, pass2, hname, read_sys_int, strcspn_nl]

/-- Witness for `power_battery_charging_proxy` at a device named
    `BAT0` with no `online` attribute. -/
theorem power_battery_charging_proxy_witness :
    parse_power_status
        (some [⟨"BAT0".data, some "Battery".data, some 42, none, some "Charging".data⟩]) =
      ({ battery_percent := 42, on_ac := 1 }, 0) ∧
    parse_power_status
        (some [⟨"BAT0".data, some "Battery".data, some 42, none, some "Discharging".data⟩]) =
      ({ battery_percent := 42, on_ac := 0 }, 0) :=
  power_battery_charging_proxy "BAT0".data none (by decide)

/-- Unsigned addition below the word size is exact. -/
theorem add64_of_lt {a b : Nat} (h : a + b < W) : add64 a b = a + b :=
  Nat.mod_eq_of_lt h

/-- Unsigned subtraction is exact when it cannot underflow. -/
theorem sub64_of_le {a b : Nat} (hba : b ≤ a) (haW : a < W) : sub64 a b = a - b := by
  unfold sub64
  rw [Nat.mod_eq_of_lt (lt_of_le_of_lt hba haW)]
  have hbW : b ≤ W := le_of_lt (lt_of_le_of_lt hba haW)
  have h1 : a + (W - b) = (a - b) + W := by omega
  rw [h1, Nat.add_mod_right, Nat.mod_eq_of_lt (by omega)]

/-- Below the word size the idle accumulator is a plain sum. -/
theorem cpu_idle_of_eq (s : cpu_stats) (h : cpu_sum s < W) :
    cpu_idle_of s = s.idle + s.iowait := by
  unfold cpu_sum at h
  exact add64_of_lt (by omega)

/-- Below the word size the non-idle accumulator is a plain sum. -/
theorem cpu_non_of_eq (s : cpu_stats) (h : cpu_sum s < W) :
    cpu_non_of s = s.user + s.nice + s.system + s.irq + s.softirq + s.steal := by
  unfold cpu_sum at h
  unfold cpu_non_of
  rw [show add64 s.user s.nice = s.user + s.nice from add64_of_lt (by omega)]
  rw [show add64 (s.user + s.nice) s.system = s.user + s.nice + s.system from
        add64_of_lt (by omega)]
  rw [show add64 (s.user + s.nice + s.system) s.irq = s.user + s.nice + s.system + s.irq from
        add64_of_lt (by omega)]
  rw [show add64 (s.user + s.nice + s.system + s.irq) s.softirq =
        s.user + s.nice + s.system + s.irq + s.softirq from add64_of_lt (by omega)]
  exact add64_of_lt (by omega)

/-- Below the word size the total accumulator is the full counter sum. -/
theorem cpu_total_of_eq (s : cpu_stats) (h : cpu_sum s < W) :
    cpu_total_of s = cpu_sum s := by
  unfold cpu_total_of
  rw [cpu_idle_of_eq s h, cpu_non_of_eq s h]
  have h' := h
  unfold cpu_sum at h' ⊢
  rw [add64_of_lt (by omega)]
  omega

/-- `(a / b) * 100 ≤ 100` for a fraction of naturals that is at most 1. -/
theorem rat_div100_le (a b : Nat) (hab : a ≤ b) (hb : 0 < b) :
    (a : ℚ) / (b : ℚ) * 100 ≤ 100 := by
  rw [div_mul_eq_mul_div, div_le_iff₀ (by exact_mod_cast hb)]
  have h : (a : ℚ) ≤ (b : ℚ) := by exact_mod_cast hab
  nlinarith

/-- **C5 (counterexample).** The claim quantifies over all `cpu_stats`
    pairs with componentwise non-decreasing counters and positive total
    delta, but the counters are 64-bit and the accumulating sums wrap:
    for `c5_prev0`/`c5_cur0` the wrapped total delta is `1` while the
    idle delta is `2 ^ 63`, so the busy percentage is
    `(2 ^ 63 + 1) · 100`, far outside `[0, 100]`. -/
theorem cpu_pct_in_range_cex :
    cpu_le c5_prev0 c5_cur0 ∧ 0 < cpu_total_delta c5_prev0 c5_cur0 ∧
    ¬((get_cpu_usage c5_prev0 c5_cur0).1 ≤ 100) := by
  have hdt : cpu_total_delta c5_prev0 c5_cur0 = 1 := by decide
  have hdi : sub64 (cpu_idle_of c5_cur0) (cpu_idle_of c5_prev0) = 2 ^ 63 := by decide
  have hsb : sub64 1 (2 ^ 63) = 2 ^ 63 + 1 := by decide
  refine ⟨by decide, by rw [hdt]; exact Nat.one_pos, ?_⟩
  have hv : (get_cpu_usage c5_prev0 c5_cur0).1 =
      ((2 ^ 63 + 1 : Nat) : ℚ) / ((1 : Nat) : ℚ) * 100 := by
    simp only [get_cpu_usage]
    rw [hdt, hdi, hsb, if_pos Nat.one_pos]
  rw [hv]
  push_cast
  norm_num

/-- **C5 (amended).** For snapshot pairs with componentwise
    non-decreasing counters, positive total delta, *and counter sums
    below the 64-bit word size* (so that no intermediate sum wraps), the
    busy and iowait percentages both lie in `[0, 100]` and the busy
    percentage plus the idle complement is exactly `100` (exact rational
    arithmetic; the C `double` computation agrees within floating-point
    tolerance). -/
theorem cpu_pct_in_range (prev cur : cpu_stats) (hle : cpu_le prev cur)
    (hW : cpu_sum cur < W) (hpos : 0 < cpu_total_delta prev cur) :
    0 ≤ (get_cpu_usage prev cur).1 ∧ (get_cpu_usage prev cur).1 ≤ 100 ∧
    0 ≤ (get_cpu_usage prev cur).2 ∧ (get_cpu_usage prev cur).2 ≤ 100 ∧
    (get_cpu_usage prev cur).1 + cpu_idle_pct prev cur = 100 := by
  obtain ⟨h1, h2, h3, h4, h5, h6, h7, h8⟩ := hle
  have hsum : cpu_sum prev ≤ cpu_sum cur := by unfold cpu_sum; omega
  have hpW : cpu_sum prev < W := lt_of_le_of_lt hsum hW
  have hdt : cpu_total_delta prev cur = cpu_sum cur - cpu_sum prev := by
    unfold cpu_total_delta
    rw [cpu_total_of_eq prev hpW, cpu_total_of_eq cur hW, sub64_of_le hsum hW]
  have hiP := cpu_idle_of_eq prev hpW
  have hiC := cpu_idle_of_eq cur hW
  have hcurW : cur.idle + cur.iowait < W := by unfold cpu_sum at hW; omega
  have hdi : sub64 (cpu_idle_of cur) (cpu_idle_of prev) =
      (cur.idle + cur.iowait) - (prev.idle + prev.iowait) := by
    rw [hiP, hiC, sub64_of_le (by omega) hcurW]
  have hdw : sub64 cur.iowait prev.iowait = cur.iowait - prev.iowait :=
    sub64_of_le h5 (by unfold cpu_sum at hW; omega)
  have hIle : (cur.idle + cur.iowait) - (prev.idle + prev.iowait) ≤
      cpu_total_delta prev cur := by
    rw [hdt]; unfold cpu_sum; omega
  have hWle : cur.iowait - prev.iowait ≤ cpu_total_delta prev cur := by
    rw [hdt]; unfold cpu_sum; omega
  have hdTW : cpu_total_delta prev cur < W := by
    rw [hdt]; unfold cpu_sum at hW ⊢; omega
  have hdb : sub64 (cpu_total_delta prev cur)
      ((cur.idle + cur.iowait) - (prev.idle + prev.iowait)) =
      cpu_total_delta prev cur - ((cur.idle + cur.iowait) - (prev.idle + prev.iowait)) :=
    sub64_of_le hIle hdTW
  have hgc : get_cpu_usage prev cur =
      (((cpu_total_delta prev cur -
          ((cur.idle + cur.iowait) - (prev.idle + prev.iowait)) : Nat) : ℚ) /
        ((cpu_total_delta prev cur : Nat) : ℚ) * 100,
       ((cur.iowait - prev.iowait : Nat) : ℚ) /
        ((cpu_total_delta prev cur : Nat) : ℚ) * 100) := by
    simp only [get_cpu_usage]
    rw [if_pos hpos, hdi, hdw, hdb]
  have hicp : cpu_idle_pct prev cur =
      (((cur.idle + cur.iowait) - (prev.idle + prev.iowait) : Nat) : ℚ) /
        ((cpu_total_delta prev cur : Nat) : ℚ) * 100 := by
    simp only [cpu_idle_pct]
    rw [if_pos hpos, hdi]
  rw [hgc, hicp]
  have hdTq : (0 : ℚ) < ((cpu_total_delta prev cur : Nat) : ℚ) := by exact_mod_cast hpos
  refine ⟨by positivity, rat_div100_le _ _ (Nat.sub_le _ _) hpos, by positivity,
    rat_div100_le _ _ hWle hpos, ?_⟩
  have hcast : ((cpu_total_delta prev cur -
        ((cur.idle + cur.iowait) - (prev.idle + prev.iowait)) : Nat) : ℚ) +
      (((cur.idle + cur.iowait) - (prev.idle + prev.iowait) : Nat) : ℚ) =
      ((cpu_total_delta prev cur : Nat) : ℚ) := by
    rw [← Nat.cast_add]
    congr 1
    omega
  field_simp
  linarith [hcast]

/-- Witness for `cpu_pct_in_range`: a small monotone pair with total
    delta 10 (busy 30%, iowait 10%). -/
theorem cpu_pct_in_range_witness :
    0 ≤ (get_cpu_usage ⟨0, 0, 0, 0, 0, 0, 0, 0⟩ ⟨3, 0, 0, 6, 1, 0, 0, 0⟩).1 ∧
    (get_cpu_usage ⟨0, 0, 0, 0, 0, 0, 0, 0⟩ ⟨3, 0, 0, 6, 1, 0, 0, 0⟩).1 ≤ 100 ∧
    0 ≤ (get_cpu_usage ⟨0, 0, 0, 0, 0, 0, 0, 0⟩ ⟨3, 0, 0, 6, 1, 0, 0, 0⟩).2 ∧
    (get_cpu_usage ⟨0, 0, 0, 0, 0, 0, 0, 0⟩ ⟨3, 0, 0, 6, 1, 0, 0, 0⟩).2 ≤ 100 ∧
    (get_cpu_usage ⟨0, 0, 0, 0, 0, 0, 0, 0⟩ ⟨3, 0, 0, 6, 1, 0, 0, 0⟩).1 +
      cpu_idle_pct ⟨0, 0, 0, 0, 0, 0, 0, 0⟩ ⟨3, 0, 0, 6, 1, 0, 0, 0⟩ = 100 :=
  cpu_pct_in_range ⟨0, 0, 0, 0, 0, 0, 0, 0⟩ ⟨3, 0, 0, 6, 1, 0, 0, 0⟩
    (by decide) (by decide) (by decide)

/-- Iterated pushes onto a non-empty array keep exactly the elements of
    `h ++ vs` past the first `vs.length` — the sliding-window shape of
    the `memmove` push. -/
theorem hist_push_all_eq {α : Type} :
    ∀ (vs h : List α), h ≠ [] → hist_push_all h vs = (h ++ vs).drop vs.length
  | [], h, _ => by simp [hist_push_all]
  | v :: vs, h, hne => by
    have hstep : hist_push_all h (v :: vs) = hist_push_all (hist_push h v) vs := rfl
    rw [hstep, hist_push_all_eq vs (hist_push h v) (by simp [hist_push])]
    cases h with
    | nil => exact absurd rfl hne
    | cons a t => simp [hist_push]

/-- **C6.** Pushing `k ≥ MAXW` CPU/memory pairs onto the two full
    `MAXW`-element history arrays (each push shifting every entry one
    position toward the oldest end, discarding the oldest, inserting at
    the newest end) leaves each array holding exactly the last `MAXW`
    pushed values in insertion order, oldest first. -/
theorem hist_push_window (hc hm : List Rat) (vs : List (Rat × Rat))
    (hlc : hc.length = MAXW) (hlm : hm.length = MAXW) (hk : MAXW ≤ vs.length) :
    hist_push_all hc (vs.map Prod.fst) = (vs.map Prod.fst).drop (vs.length - MAXW) ∧
    hist_push_all hm (vs.map Prod.snd) = (vs.map Prod.snd).drop (vs.length - MAXW) := by
  constructor
  · rw [hist_push_all_eq _ _ (by intro h0; rw [h0] at hlc; simp [MAXW] at hlc)]
    have h1 : (vs.map Prod.fst).length = hc.length + (vs.length - MAXW) := by
      simp [List.length_map, hlc]; omega
    rw [h1, List.drop_append]
  · rw [hist_push_all_eq _ _ (by intro h0; rw [h0] at hlm; simp [MAXW] at hlm)]
    have h1 : (vs.map Prod.snd).length = hm.length + (vs.length - MAXW) := by
      simp [List.length_map, hlm]; omega
    rw [h1, List.drop_append]

/-- Witness for `hist_push_window`: 512 distinct pairs pushed onto
    zeroed arrays. -/
theorem hist_push_window_witness :
    hist_push_all (List.replicate MAXW (0 : Rat)) (c6_vals.map Prod.fst) =
      (c6_vals.map Prod.fst).drop (c6_vals.length - MAXW) ∧
    hist_push_all (List.replicate MAXW (0 : Rat)) (c6_vals.map Prod.snd) =
      (c6_vals.map Prod.snd).drop (c6_vals.length - MAXW) :=
  hist_push_window _ _ c6_vals (by simp) (by simp)
    (by unfold c6_vals; rw [List.length_map, List.length_range])

/-- One append preserves the capacity bound. -/
theorem debug_log_append_len {buf : List String} {l : String}
    (h : buf.length ≤ MAX_DEBUG_LINES) :
    (debug_log_append buf l).length ≤ MAX_DEBUG_LINES := by
  unfold debug_log_append
  split
  · simp [MAX_DEBUG_LINES] at *; omega
  · simp at *; omega

/-- From any buffer within capacity, a sequence of appends leaves
    exactly the lines of `buf ++ ls` past the point where the capacity
    window starts. -/
theorem debug_append_all_eq :
    ∀ (ls buf : List String), buf.length ≤ MAX_DEBUG_LINES →
      debug_append_all buf ls = (buf ++ ls).drop ((buf ++ ls).length - MAX_DEBUG_LINES)
  | [], buf, h => by
    simp [debug_append_all, Nat.sub_eq_zero_of_le h]
  | l :: ls, buf, h => by
    have hstep : debug_append_all buf (l :: ls) =
        debug_append_all (debug_log_append buf l) ls := rfl
    rw [hstep, debug_append_all_eq ls _ (debug_log_append_len h)]
    unfold debug_log_append
    by_cases hc : MAX_DEBUG_LINES ≤ buf.length
    · rw [if_pos hc]
      have h12 : buf.length = MAX_DEBUG_LINES := le_antisymm h hc
      cases buf with
      | nil => simp [MAX_DEBUG_LINES] at h12
      | cons a t =>
        have ht : t.length + 1 = MAX_DEBUG_LINES := by simpa using h12
        simp only [List.drop_succ_cons, List.drop_zero]
        have e1 : t ++ [l] ++ ls = t ++ l :: ls := by simp
        rw [e1]
        have e2 : (t ++ l :: ls).length - MAX_DEBUG_LINES = ls.length := by
          simp only [List.length_append, List.length_cons]; omega
        have e3 : ((a :: t) ++ l :: ls).length - MAX_DEBUG_LINES = ls.length + 1 := by
          simp only [List.length_append, List.length_cons]; omega
        rw [e2, e3, show (a :: t) ++ l :: ls = a :: (t ++ l :: ls) from rfl,
            List.drop_succ_cons]
    · rw [if_neg hc]
      simp

/-- **C7.** The debug log buffer is a bounded FIFO: starting from the
    empty startup buffer, any sequence of appends leaves at most
    `MAX_DEBUG_LINES` lines and they are exactly the most recent
    appended lines in insertion order; an append to a full buffer evicts
    exactly the oldest line. -/
theorem debug_log_fifo (ls buf : List String) (l : String) :
    (debug_append_all [] ls).length ≤ MAX_DEBUG_LINES ∧
    debug_append_all [] ls = ls.drop (ls.length - MAX_DEBUG_LINES) ∧
    (buf.length = MAX_DEBUG_LINES → debug_log_append buf l = buf.drop 1 ++ [l]) := by
  have hcore := debug_append_all_eq ls [] (by simp)
  simp only [List.nil_append] at hcore
  refine ⟨?_, hcore, ?_⟩
  · rw [hcore]
    simp only [List.length_drop]
    simp [MAX_DEBUG_LINES]
    omega
  · intro hb
    unfold debug_log_append
    rw [if_pos (le_of_eq hb.symm)]

/-- Witness for `debug_log_fifo`: 20 appends onto the empty buffer and
    one append onto a full 12-line buffer. -/
theorem debug_log_fifo_witness :
    (debug_append_all [] c7_lines0).length ≤ MAX_DEBUG_LINES ∧
    debug_append_all [] c7_lines0 = c7_lines0.drop (c7_lines0.length - MAX_DEBUG_LINES) ∧
    debug_log_append c7_buf0 "x" = c7_buf0.drop 1 ++ ["x"] :=
  ⟨(debug_log_fifo c7_lines0 c7_buf0 "x").1,
   (debug_log_fifo c7_lines0 c7_buf0 "x").2.1,
   (debug_log_fifo c7_lines0 c7_buf0 "x").2.2
     (by simp [c7_buf0, MAX_DEBUG_LINES])⟩

/-- **C4 (counterexample).** The loadavg line `"3 x"` parses only one
    of the six fields, so `parse_loadavg` returns `-1` — but the
    snapshot does NOT retain all of its previous values: `sscanf` had
    already stored the first field, overwriting `load_1min` (7 becomes
    3). -/
theorem parse_loadavg_mutates_cex :
    (parse_loadavg c4_lv0 (some ("3 x\n".data))).2 = -1 ∧
    (parse_loadavg c4_lv0 (some ("3 x\n".data))).1 ≠ c4_lv0 := by
  decide

/-- **C4 (amended).** A loadavg line from which fewer than six fields
    parse makes `parse_loadavg` report the recoverable error `-1` (as
    does a failed open/read, which touches nothing), and every field the
    scan did NOT yet reach retains its previous value — but the fields
    already converted before the failure point have been overwritten,
    exactly as `sscanf` stores arguments incrementally. -/
theorem parse_loadavg_short_parse (lv : loadavg_t) (buf : List Char) :
    parse_loadavg lv none = (lv, -1) ∧
    ((scan_loadavg buf lv).2 < 6 →
      (parse_loadavg lv (some buf)).2 = -1 ∧
      (parse_loadavg lv (some buf)).1 = (scan_loadavg buf lv).1 ∧
      ((scan_loadavg buf lv).2 ≤ 5 → (scan_loadavg buf lv).1.last_pid = lv.last_pid) ∧
      ((scan_loadavg buf lv).2 ≤ 4 →
        (scan_loadavg buf lv).1.total_processes = lv.total_processes) ∧
      ((scan_loadavg buf lv).2 ≤ 3 →
        (scan_loadavg buf lv).1.running_processes = lv.running_processes) ∧
      ((scan_loadavg buf lv).2 ≤ 2 → (scan_loadavg buf lv).1.load_15min = lv.load_15min) ∧
      ((scan_loadavg buf lv).2 ≤ 1 → (scan_loadavg buf lv).1.load_5min = lv.load_5min) ∧
      ((scan_loadavg buf lv).2 = 0 → (scan_loadavg buf lv).1.load_1min = lv.load_1min)) := by
  refine ⟨rfl, ?_⟩
  intro hlt
  have hp : (parse_loadavg lv (some buf)).2 = -1 ∧
      (parse_loadavg lv (some buf)).1 = (scan_loadavg buf lv).1 := by
    simp only [parse_loadavg]
    rw [if_neg (by omega)]
    exact ⟨rfl, rfl⟩
  refine ⟨hp.1, hp.2, ?_, ?_, ?_, ?_, ?_, ?_⟩ <;>
  · rcases h1 : parse_float (skip_ws buf) with _ | ⟨v1, s1⟩
    · simp [scan_loadavg, h1]
    rcases h2 : parse_float (skip_ws s1) with _ | ⟨v2, s2⟩
    · simp [scan_loadavg, h1, h2]
    rcases h3 : parse_float (skip_ws s2) with _ | ⟨v3, s3⟩
    · simp [scan_loadavg, h1, h2, h3]
    rcases h4 : parse_int (skip_ws s3) with _ | ⟨r, s4⟩
    · simp [scan_loadavg, h1, h2, h3, h4]
    by_cases hsl : s4.head? = some '/'
    · rcases h5 : parse_int (skip_ws s4.tail) with _ | ⟨t, s6⟩
      · simp [scan_loadavg, List.drop_one, h1, h2, h3, h4, hsl, h5]
      rcases h6 : parse_int (skip_ws s6) with _ | ⟨p, s7⟩
      · simp [scan_loadavg, List.drop_one, h1, h2, h3, h4, hsl, h5, h6]
      · simp [scan_loadavg, List.drop_one, h1, h2, h3, h4, hsl, h5, h6] at hlt
    · simp [scan_loadavg, h1, h2, h3, h4, hsl]

/-- Witness for `parse_loadavg_short_parse`: the line `"abc"` parses no
    field, the call errors out, and `load_1min` (as the field the scan
    never reached) is intact. -/
theorem parse_loadavg_short_parse_witness :
    parse_loadavg c4_lv0 none = (c4_lv0, -1) ∧
    (parse_loadavg c4_lv0 (some ("abc".data))).2 = -1 ∧
    (scan_loadavg ("abc".data) c4_lv0).1.load_1min = c4_lv0.load_1min :=
  ⟨(parse_loadavg_short_parse c4_lv0 ("abc".data)).1,
   ((parse_loadavg_short_parse c4_lv0 ("abc".data)).2 (by decide)).1,
   ((parse_loadavg_short_parse c4_lv0 ("abc".data)).2 (by decide)).2.2.2.2.2.2.2
     (by decide)⟩

/-- `fgets` collects exactly one newline-terminated line that fits in
    its 1024-byte buffer. -/
theorem fgets_go_line :
    ∀ (l : List Char) (acc : List Char) (n : Nat) (rest : List Char),
      '\n' ∉ l → l.length < n →
      fgets_go acc n (l ++ '\n' :: rest) = ((acc.reverse ++ l) ++ ['\n'], rest)
  | [], acc, n, rest, _, hn => by
    cases n with
    | zero => omega
    | succ m => simp [fgets_go]
  | c :: l, acc, n, rest, hnl, hn => by
    cases n with
    | zero => simp at hn
    | succ m =>
      have hc : c ≠ '\n' := by intro h; exact hnl (by simp [h])
      have hl : '\n' ∉ l := by intro h; exact hnl (by simp [h])
      simp only [List.cons_append, fgets_go, if_neg hc, List.append_eq]
      rw [fgets_go_line l (c :: acc) m rest hl (by simp at hn; omega)]
      simp

/-- Stripping the terminator recovers the appended payload. -/
theorem strcspn_cut_line :
    ∀ (l : List Char), (∀ c ∈ l, ¬(c = '\r' ∨ c = '\n')) →
      strcspn_cut (l ++ ['\n']) = l
  | [], _ => by simp [strcspn_cut]
  | c :: t, h => by
    have hc := h c (by simp)
    have ht : ∀ x ∈ t, ¬(x = '\r' ∨ x = '\n') := fun x hx => h x (by simp [hx])
    have hrec := strcspn_cut_line t ht
    simp only [strcspn_cut, List.cons_append, List.takeWhile_cons] at hrec ⊢
    push_neg at hc
    have hcond : (c != '\r' && c != '\n') = true := by
      simp only [Bool.and_eq_true, bne_iff_ne, ne_eq]
      exact ⟨hc.1, hc.2⟩
    simp only [hcond, if_true]
    rw [hrec]

/-- The `while (fgets(...))` loop reads every cleanly appended line, in
    order, into the bounded log buffer, ending at (a set, about to be
    cleared) EOF. -/
theorem read_debug_go_clean :
    ∀ (lines : List (List Char)) (fuel : Nat) (buf : List String) (upd : Bool),
      (∀ l ∈ lines, CleanLine l) → (encode_lines lines).length < fuel →
      read_debug_go fuel ⟨encode_lines lines, false⟩ buf upd =
        (⟨[], true⟩, debug_append_all buf (lines.map (fun l => String.mk l)),
         upd || !lines.isEmpty)
  | [], fuel, buf, upd, _, hf => by
    cases fuel with
    | zero => simp [encode_lines] at hf
    | succ f =>
      simp [read_debug_go, dbg_fgets, encode_lines, debug_append_all]
  | l :: ls, fuel, buf, upd, hc, hf => by
    cases fuel with
    | zero => simp [encode_lines] at hf
    | succ f =>
      obtain ⟨hlen, hchars⟩ := hc l (by simp)
      have hnl : '\n' ∉ l := by
        intro hmem
        exact (hchars '\n' hmem) (by simp)
      have henc : encode_lines (l :: ls) = l ++ '\n' :: encode_lines ls := by
        simp [encode_lines, encode_line]
      have hne : (l ++ '\n' :: encode_lines ls).isEmpty = false := by
        cases l <;> simp
      have hfg := fgets_go_line l [] 1023 (encode_lines ls) hnl (by omega)
      simp only [List.nil_append] at hfg
      have hfgets : dbg_fgets ⟨l ++ '\n' :: encode_lines ls, false⟩ =
          (some (l ++ ['\n']), ⟨encode_lines ls, false⟩) := by
        simp [dbg_fgets, hne, hfg]
      have hlen2 : (encode_lines ls).length < f := by
        rw [henc] at hf
        simp at hf
        omega
      rw [henc]
      simp only [read_debug_go, hfgets]
      rw [strcspn_cut_line l hchars]
      rw [read_debug_go_clean ls f _ true (fun x hx => hc x (by simp [hx])) hlen2]
      simp [debug_append_all]

/-- One full drain: all pending clean lines land in the buffer in order
    and `clearerr` leaves the stream readable (`eof = false`). -/
theorem read_debug_file_clean (lines : List (List Char)) (buf : List String)
    (h : ∀ l ∈ lines, CleanLine l) :
    read_debug_file ⟨encode_lines lines, false⟩ buf =
      (⟨[], false⟩, debug_append_all buf (lines.map (fun l => String.mk l)),
       !lines.isEmpty) := by
  unfold read_debug_file
  rw [read_debug_go_clean lines _ buf false h (by simp)]
  simp

/-- **C8.** For every schedule of append-then-drain tick cycles
    (batches may be empty, so drains repeatedly hit end-of-file between
    appends), every line appended in any cycle is read by that cycle's
    drain and appended, in order, to the log buffer, and after each
    drain the stream is left with no pending data and a cleared EOF
    indicator — a drain that hit EOF never blocks a later drain. -/
theorem tail_drain_all :
    ∀ (cycles : List (List (List Char))) (buf : List String),
      (∀ cyc ∈ cycles, ∀ l ∈ cyc, CleanLine l) →
      run_cycles ⟨[], false⟩ buf cycles =
        (⟨[], false⟩, debug_append_all buf (cycles.flatten.map (fun l => String.mk l)))
  | [], buf, _ => by simp [run_cycles, debug_append_all]
  | cyc :: rest, buf, h => by
    have hst : append_text ⟨[], false⟩ cyc = ⟨encode_lines cyc, false⟩ := by
      simp [append_text]
    simp only [run_cycles, hst,
      read_debug_file_clean cyc buf (fun l hl => h cyc (by simp) l hl)]
    rw [tail_drain_all rest _ (fun c hc l hl => h c (by simp [hc]) l hl)]
    simp [debug_append_all, List.foldl_append]

/-- Witness for `tail_drain_all`: line `a`, an empty cycle (pure
    EOF tick), then lines `bc` and `d`; all three lines appear in
    order. -/
theorem tail_drain_all_witness :
    run_cycles ⟨[], false⟩ [] c8_sched =
      (⟨[], false⟩, debug_append_all [] (c8_sched.flatten.map (fun l => String.mk l))) :=
  tail_drain_all c8_sched [] (by decide)

end Sidecar
